import Mathlib

/-!
Verification of the EJBCA SPIRE UpstreamAuthority plugin against its
natural-language specification.

The repository source available here consists of the plugin's test suite
(package ejbca test file), the plugin entry point, and documentation; the
bodies of the plugin functions themselves (configuration validation, end
entity name derivation, enrollment response parsing) are exercised by the
tests but their sources are not present.  The definitions below therefore
embed the data model of the plugin and model the missing operations from
the specification, anchored to the concrete expectations recorded in the
test file (TestConfigure, TestMintX509CAAndSubscribe, TestGetEndEntityName,
certificateRestResponseFromExpectedCerts).
-/

set_option maxRecDepth 8000

deriving instance DecidableEq for Except

namespace EjbcaPlugin

/-- Status codes carried by plugin errors, mirroring the gRPC codes the
tests assert (codes.InvalidArgument, codes.Internal, codes.OK is the
absence of an error). -/
inductive ErrCode where
  | invalidArgument
  | internal
deriving DecidableEq

/-- An error produced by the plugin: a status code plus a message. -/
structure EjbcaError where
  code : ErrCode
  msg : String
deriving DecidableEq

/-- The subject and SAN fields of a certificate signing request that the
end-entity namer consults.  URIs and IP addresses are kept in their string
form, as the namer only ever uses their string rendering. -/
structure CSR where
  commonName : String
  dnsNames : List String
  uris : List String
  ips : List String
deriving DecidableEq

/-- Modelled from the spec: the end-entity name derivation
(`getEndEntityName`, whose body is absent from src/; TestGetEndEntityName
is present).  Policy tokens `cn`, `dns`, `uri`, `ip` select that field's
first value directly with no fallback; the unset policy tries Common Name,
then the first non-empty DNS SAN, then the first non-empty URI SAN, then
the first non-empty IP SAN, and fails with InvalidArgument when none is
non-empty; any other token is returned verbatim. -/
def getEndEntityName (defaultEndEntityName : String) (csr : CSR) :
    Except EjbcaError String :=
  if defaultEndEntityName = "cn" then .ok csr.commonName
  else if defaultEndEntityName = "dns" then .ok (csr.dnsNames.headD "")
  else if defaultEndEntityName = "uri" then .ok (csr.uris.headD "")
  else if defaultEndEntityName = "ip" then .ok (csr.ips.headD "")
  else if defaultEndEntityName = "" then
    if csr.commonName ≠ "" then .ok csr.commonName
    else match csr.dnsNames.find? (fun s => s != "") with
      | some d => .ok d
      | none => match csr.uris.find? (fun s => s != "") with
        | some u => .ok u
        | none => match csr.ips.find? (fun s => s != "") with
          | some i => .ok i
          | none => .error ⟨.invalidArgument, "no end entity name found"⟩
  else .ok defaultEndEntityName

/-- Helper: find? distributes over list append, first list first. -/
theorem find?_append (p : String → Bool) (l₁ l₂ : List String) :
    (l₁ ++ l₂).find? p =
      match l₁.find? p with
      | some v => some v
      | none => l₂.find? p := by
  induction l₁ with
  | nil => simp
  | cons a l ih =>
    cases hp : p a <;> simp [List.find?_cons, hp, ih]

/-- C2: with the policy token unset, the derived end-entity name is the
first non-empty value among the Common Name, then the DNS SANs, then the
URI SANs, then the IP SANs of the CSR, and derivation fails with
InvalidArgument when all of these are empty. -/
theorem getEndEntityName_unset_firstNonEmpty (csr : CSR) :
    getEndEntityName "" csr =
      match (csr.commonName :: (csr.dnsNames ++ csr.uris ++ csr.ips)).find?
          (fun s => s != "") with
      | some v => .ok v
      | none => .error ⟨.invalidArgument, "no end entity name found"⟩ := by
  unfold getEndEntityName
  rw [if_neg (by decide), if_neg (by decide), if_neg (by decide),
    if_neg (by decide), if_pos rfl]
  by_cases hcn : csr.commonName = ""
  · rw [if_neg (by simp [hcn])]
    rw [List.find?_cons_of_neg _ (by simp [hcn])]
    rw [find?_append, find?_append]
    cases hd : csr.dnsNames.find? (fun s => s != "") <;>
      cases hu : csr.uris.find? (fun s => s != "") <;>
        cases hi : csr.ips.find? (fun s => s != "") <;> simp
  · rw [if_pos hcn, List.find?_cons_of_pos _ (by simp [hcn])]

/-- C3: with the policy token equal to one of cn, dns, uri, ip, derivation
returns exactly that field's first value (CN, first DNS SAN, first URI SAN,
first IP SAN); when the selected field is absent the result is the empty
string, with no fallback to any other field of the CSR. -/
theorem getEndEntityName_fixedPolicy (csr : CSR) :
    getEndEntityName "cn" csr = .ok csr.commonName ∧
    getEndEntityName "dns" csr = .ok (csr.dnsNames.headD "") ∧
    getEndEntityName "uri" csr = .ok (csr.uris.headD "") ∧
    getEndEntityName "ip" csr = .ok (csr.ips.headD "") ∧
    (csr.commonName = "" → getEndEntityName "cn" csr = .ok "") ∧
    (csr.dnsNames = [] → getEndEntityName "dns" csr = .ok "") ∧
    (csr.uris = [] → getEndEntityName "uri" csr = .ok "") ∧
    (csr.ips = [] → getEndEntityName "ip" csr = .ok "") := by
  refine ⟨?_, ?_, ?_, ?_, ?_, ?_, ?_, ?_⟩ <;>
    first
    | (intro h
       unfold getEndEntityName
       simp [h])
    | (unfold getEndEntityName
       simp)

/-- Witness for C3 at the all-empty CSR: the selected-field policies
return the empty string rather than falling back or failing. -/
theorem getEndEntityName_fixedPolicy_witness :
    getEndEntityName "cn" ⟨"", [], [], []⟩ = .ok "" ∧
    getEndEntityName "dns" ⟨"", [], [], []⟩ = .ok "" ∧
    getEndEntityName "uri" ⟨"", [], [], []⟩ = .ok "" ∧
    getEndEntityName "ip" ⟨"", [], [], []⟩ = .ok "" :=
  ⟨(getEndEntityName_fixedPolicy ⟨"", [], [], []⟩).2.2.2.2.1 rfl,
   (getEndEntityName_fixedPolicy ⟨"", [], [], []⟩).2.2.2.2.2.1 rfl,
   (getEndEntityName_fixedPolicy ⟨"", [], [], []⟩).2.2.2.2.2.2.1 rfl,
   (getEndEntityName_fixedPolicy ⟨"", [], [], []⟩).2.2.2.2.2.2.2 rfl⟩

/-- C8: a non-empty policy token other than cn, dns, uri, ip is returned
unchanged, and the result does not depend on any field of the CSR. -/
theorem getEndEntityName_literalPolicy (p : String) (csr csr' : CSR)
    (h0 : p ≠ "") (h1 : p ≠ "cn") (h2 : p ≠ "dns") (h3 : p ≠ "uri")
    (h4 : p ≠ "ip") :
    getEndEntityName p csr = .ok p ∧
    getEndEntityName p csr = getEndEntityName p csr' := by
  unfold getEndEntityName
  rw [if_neg h1, if_neg h2, if_neg h3, if_neg h4, if_neg h0,
    if_neg h1, if_neg h2, if_neg h3, if_neg h4, if_neg h0]
  exact ⟨rfl, rfl⟩

/-- Witness for C8 at the literal token of TestGetEndEntityName, applied to
the fully-populated CSR of the test and to the empty CSR. -/
theorem getEndEntityName_literalPolicy_witness :
    getEndEntityName "aNonStandardValue"
        ⟨"purplecat.example.com", ["reddog.example.com"],
         ["https://blueelephant.example.com"], ["192.168.1.1"]⟩ =
      .ok "aNonStandardValue" ∧
    getEndEntityName "aNonStandardValue"
        ⟨"purplecat.example.com", ["reddog.example.com"],
         ["https://blueelephant.example.com"], ["192.168.1.1"]⟩ =
      getEndEntityName "aNonStandardValue" ⟨"", [], [], []⟩ :=
  getEndEntityName_literalPolicy "aNonStandardValue"
    ⟨"purplecat.example.com", ["reddog.example.com"],
     ["https://blueelephant.example.com"], ["192.168.1.1"]⟩
    ⟨"", [], [], []⟩
    (by decide) (by decide) (by decide) (by decide) (by decide)

/-- The model reproduces every row of TestGetEndEntityName: the four
unset-policy fallback rows, the four fixed-policy rows, and the literal
row, with the CSR field values used by the test. -/
theorem testGetEndEntityName_vectors :
    getEndEntityName "" ⟨"purplecat.example.com", ["reddog.example.com"],
        ["https://blueelephant.example.com"], ["192.168.1.1"]⟩ =
      .ok "purplecat.example.com" ∧
    getEndEntityName "" ⟨"", ["reddog.example.com"],
        ["https://blueelephant.example.com"], ["192.168.1.1"]⟩ =
      .ok "reddog.example.com" ∧
    getEndEntityName "" ⟨"", [""],
        ["https://blueelephant.example.com"], ["192.168.1.1"]⟩ =
      .ok "https://blueelephant.example.com" ∧
    getEndEntityName "" ⟨"", [""], [""], ["192.168.1.1"]⟩ =
      .ok "192.168.1.1" ∧
    getEndEntityName "" ⟨"", [""], [""], [""]⟩ =
      .error ⟨.invalidArgument, "no end entity name found"⟩ ∧
    getEndEntityName "cn" ⟨"purplecat.example.com", ["reddog.example.com"],
        ["https://blueelephant.example.com"], ["192.168.1.1"]⟩ =
      .ok "purplecat.example.com" ∧
    getEndEntityName "dns" ⟨"purplecat.example.com", ["reddog.example.com"],
        ["https://blueelephant.example.com"], ["192.168.1.1"]⟩ =
      .ok "reddog.example.com" ∧
    getEndEntityName "uri" ⟨"purplecat.example.com", ["reddog.example.com"],
        ["https://blueelephant.example.com"], ["192.168.1.1"]⟩ =
      .ok "https://blueelephant.example.com" ∧
    getEndEntityName "ip" ⟨"purplecat.example.com", ["reddog.example.com"],
        ["https://blueelephant.example.com"], ["192.168.1.1"]⟩ =
      .ok "192.168.1.1" := by
  decide

/-! Byte-level codec layer.  The test file builds CA responses with
pem.EncodeToMemory and base64.StdEncoding.EncodeToString over the raw DER
bytes of the certificates; base64 and the PEM envelope are modelled
concretely below.  The x509 DER codec itself belongs to the Go standard
library (an external collaborator), so it is abstracted by an injective,
executable serialisation of the two fields the chain splitter consults:
the subject and the issuer. -/

/-- A certificate as seen by the chain splitter: its subject and issuer
distinguished names, as strings. -/
structure Cert where
  subject : String
  issuer : String
deriving DecidableEq

/-- A certificate is self-signed exactly when its issuer equals its own
subject. -/
def Cert.isSelfSigned (c : Cert) : Bool := c.issuer == c.subject

/-- One character code, written as three base-255 digits (every Unicode
scalar value is below 255 ^ 3), keeping every emitted byte below 255 so
that 255 can serve as a field separator. -/
def encodeChar (ch : Char) : List Nat :=
  [ch.toNat / 65025, ch.toNat / 255 % 255, ch.toNat % 255]

/-- Inverse of encodeChar, three-byte groups at a time. -/
def decodeChars : List Nat → Option (List Char)
  | [] => some []
  | d2 :: d1 :: d0 :: rest =>
    match decodeChars rest with
    | some cs => some (Char.ofNat (d2 * 65025 + d1 * 255 + d0) :: cs)
    | none => none
  | _ => none

/-- The byte stream of a string under the character codec. -/
def strToBytes (s : String) : List Nat := (s.data.map encodeChar).flatten

/-- Every Unicode scalar value is below 1114112. -/
theorem char_toNat_lt (ch : Char) : ch.toNat < 1114112 := by
  have hv : ch.toNat = ch.val.toNat := rfl
  have h := ch.valid
  rcases h with h | ⟨h1, h2⟩ <;> omega

/-- Every byte emitted by encodeChar is below 255. -/
theorem encodeChar_lt (ch : Char) : ∀ b ∈ encodeChar ch, b < 255 := by
  have h := char_toNat_lt ch
  intro b hb
  simp [encodeChar] at hb
  rcases hb with h1 | h1 | h1 <;> omega

/-- Every byte emitted by strToBytes is below 255. -/
theorem strToBytes_lt (s : String) : ∀ b ∈ strToBytes s, b < 255 := by
  intro b hb
  simp only [strToBytes, List.mem_flatten, List.mem_map] at hb
  obtain ⟨l, ⟨ch, _, rfl⟩, hbl⟩ := hb
  exact encodeChar_lt ch b hbl

/-- decodeChars inverts the character codec. -/
theorem decodeChars_encode (cs : List Char) :
    decodeChars ((cs.map encodeChar).flatten) = some cs := by
  induction cs with
  | nil => rfl
  | cons ch rest ih =>
    have h := char_toNat_lt ch
    have harith : ch.toNat / 65025 * 65025 + ch.toNat / 255 % 255 * 255 +
        ch.toNat % 255 = ch.toNat := by omega
    simp only [List.map_cons, List.flatten_cons, encodeChar, List.cons_append,
      List.nil_append, List.append_eq, decodeChars, ih, harith,
      Char.ofNat_toNat]

/-- decodeChars inverts strToBytes, recovering the original string. -/
theorem decodeChars_strToBytes (s : String) :
    (decodeChars (strToBytes s)).map String.mk = some s := by
  cases s with
  | mk data => simp [strToBytes, decodeChars_encode]

/-- Abstraction of the DER serialisation of a certificate: the subject
bytes, a separator byte 255 (which the character codec never emits), and
the issuer bytes. -/
def derOfCert (c : Cert) : List Nat :=
  strToBytes c.subject ++ 255 :: strToBytes c.issuer

/-- Abstraction of DER certificate parsing: split at the separator and
decode the two fields. -/
def certOfDer (bs : List Nat) : Option Cert :=
  match bs.dropWhile (fun b => b != 255) with
  | sep :: rest =>
    if sep = 255 then
      match decodeChars (bs.takeWhile (fun b => b != 255)),
          decodeChars rest with
      | some subj, some iss => some ⟨String.mk subj, String.mk iss⟩
      | _, _ => none
    else none
  | [] => none

/-- Every byte of the DER stream is below 256. -/
theorem derOfCert_lt (c : Cert) : ∀ b ∈ derOfCert c, b < 256 := by
  intro b hb
  simp only [derOfCert, List.mem_append, List.mem_cons] at hb
  rcases hb with h | h | h
  · exact Nat.lt_succ_of_lt (strToBytes_lt _ b h)
  · omega
  · exact Nat.lt_succ_of_lt (strToBytes_lt _ b h)

/-- Splitting a byte stream of sub-255 bytes at the 255 sentinel. -/
theorem takeWhile_dropWhile_sentinel (l₁ l₂ : List Nat)
    (h : ∀ b ∈ l₁, b < 255) :
    (l₁ ++ 255 :: l₂).takeWhile (fun b => b != 255) = l₁ ∧
    (l₁ ++ 255 :: l₂).dropWhile (fun b => b != 255) = 255 :: l₂ := by
  induction l₁ with
  | nil =>
    refine ⟨?_, ?_⟩ <;>
      simp [List.takeWhile_cons, List.dropWhile_cons]
  | cons a l ih =>
    have ha : a < 255 := h a (by simp)
    have ha' : (a != 255) = true := by
      simp only [bne_iff_ne, ne_eq]
      omega
    have ih' := ih (fun b hb => h b (by simp [hb]))
    refine ⟨?_, ?_⟩ <;>
      simp [List.takeWhile_cons, List.dropWhile_cons, ha', ih'.1, ih'.2]

/-- certOfDer inverts derOfCert. -/
theorem certOfDer_derOfCert (c : Cert) : certOfDer (derOfCert c) = some c := by
  obtain ⟨hs, hd⟩ := takeWhile_dropWhile_sentinel (strToBytes c.subject)
    (strToBytes c.issuer) (strToBytes_lt c.subject)
  have hsubj := decodeChars_strToBytes c.subject
  have hiss := decodeChars_strToBytes c.issuer
  cases hds : decodeChars (strToBytes c.subject) with
  | none => rw [hds] at hsubj; simp at hsubj
  | some subj =>
    cases hdi : decodeChars (strToBytes c.issuer) with
    | none => rw [hdi] at hiss; simp at hiss
    | some iss =>
      rw [hds] at hsubj
      rw [hdi] at hiss
      simp only [Option.map_some'] at hsubj hiss
      simp only [certOfDer, derOfCert, hd, hs, if_pos rfl, hds, hdi]
      rw [Option.some_inj] at hsubj hiss
      rw [hsubj, hiss]
      simp

/-- The standard base64 alphabet, indexed by a sextet value. -/
def b64Char (n : Nat) : Char :=
  if n < 26 then Char.ofNat (65 + n)
  else if n < 52 then Char.ofNat (97 + (n - 26))
  else if n < 62 then Char.ofNat (48 + (n - 52))
  else if n = 62 then '+'
  else '/'

/-- Reverse lookup into the base64 alphabet. -/
def b64Val (c : Char) : Option Nat :=
  let t := c.toNat
  if 65 ≤ t ∧ t ≤ 90 then some (t - 65)
  else if 97 ≤ t ∧ t ≤ 122 then some (t - 71)
  else if 48 ≤ t ∧ t ≤ 57 then some (t + 4)
  else if t = 43 then some 62
  else if t = 47 then some 63
  else none

/-- Standard base64 with padding over a byte list, three bytes at a time,
as performed by base64.StdEncoding.EncodeToString in the test file. -/
def b64Encode : List Nat → List Char
  | [] => []
  | [a] => [b64Char (a / 4), b64Char (a % 4 * 16), '=', '=']
  | [a, b] => [b64Char (a / 4), b64Char (a % 4 * 16 + b / 16),
      b64Char (b % 16 * 4), '=']
  | a :: b :: c :: rest =>
    b64Char (a / 4) :: b64Char (a % 4 * 16 + b / 16) ::
      b64Char (b % 16 * 4 + c / 64) :: b64Char (c % 64) :: b64Encode rest

/-- Standard base64 decoding with padding, four characters at a time. -/
def b64Decode : List Char → Option (List Nat)
  | [] => some []
  | c1 :: c2 :: c3 :: c4 :: rest =>
    if c3 = '=' ∧ c4 = '=' ∧ rest = [] then
      match b64Val c1, b64Val c2 with
      | some v1, some v2 => some [v1 * 4 + v2 / 16]
      | _, _ => none
    else if c4 = '=' ∧ rest = [] then
      match b64Val c1, b64Val c2, b64Val c3 with
      | some v1, some v2, some v3 =>
        some [v1 * 4 + v2 / 16, v2 % 16 * 16 + v3 / 4]
      | _, _, _ => none
    else
      match b64Val c1, b64Val c2, b64Val c3, b64Val c4, b64Decode rest with
      | some v1, some v2, some v3, some v4, some bs =>
        some ((v1 * 4 + v2 / 16) :: (v2 % 16 * 16 + v3 / 4) ::
          (v3 % 4 * 64 + v4) :: bs)
      | _, _, _, _, _ => none
  | _ => none

/-- Alphabet reverse lookup inverts the alphabet on sextet values. -/
theorem b64Val_b64Char : ∀ n, n < 64 → b64Val (b64Char n) = some n := by
  decide

/-- No sextet value maps to the padding character. -/
theorem b64Char_ne_pad : ∀ n, n < 64 → b64Char n ≠ '=' := by
  decide

/-- base64 decoding inverts base64 encoding on byte lists. -/
theorem b64Decode_b64Encode (bs : List Nat) (h : ∀ b ∈ bs, b < 256) :
    b64Decode (b64Encode bs) = some bs := by
  induction bs using b64Encode.induct with
  | case1 => rfl
  | case2 a =>
    have ha : a < 256 := h a (by simp)
    have h1 : a / 4 < 64 := by omega
    have h2 : a % 4 * 16 < 64 := by omega
    have e : a / 4 * 4 + a % 4 * 16 / 16 = a := by omega
    simp only [b64Encode, b64Decode, b64Val_b64Char _ h1, b64Val_b64Char _ h2]
    simp
    omega
  | case3 a b =>
    have ha : a < 256 := h a (by simp)
    have hb : b < 256 := h b (by simp)
    have h1 : a / 4 < 64 := by omega
    have h2 : a % 4 * 16 + b / 16 < 64 := by omega
    have h3 : b % 16 * 4 < 64 := by omega
    have e1 : a / 4 * 4 + (a % 4 * 16 + b / 16) / 16 = a := by omega
    have e2 : (a % 4 * 16 + b / 16) % 16 * 16 + b % 16 * 4 / 4 = b := by omega
    simp only [b64Encode, b64Decode, b64Val_b64Char _ h1, b64Val_b64Char _ h2,
      b64Val_b64Char _ h3]
    simp [b64Char_ne_pad _ h3]
    omega
  | case4 a b c rest ih =>
    have ha : a < 256 := h a (by simp)
    have hb : b < 256 := h b (by simp)
    have hc : c < 256 := h c (by simp)
    have h1 : a / 4 < 64 := by omega
    have h2 : a % 4 * 16 + b / 16 < 64 := by omega
    have h3 : b % 16 * 4 + c / 64 < 64 := by omega
    have h4 : c % 64 < 64 := by omega
    have e1 : a / 4 * 4 + (a % 4 * 16 + b / 16) / 16 = a := by omega
    have e2 : (a % 4 * 16 + b / 16) % 16 * 16 + (b % 16 * 4 + c / 64) / 4 = b := by
      omega
    have e3 : (b % 16 * 4 + c / 64) % 4 * 64 + c % 64 = c := by omega
    have ih' := ih (fun x hx => h x (by simp [hx]))
    simp only [b64Encode, b64Decode, b64Val_b64Char _ h1, b64Val_b64Char _ h2,
      b64Val_b64Char _ h3, b64Val_b64Char _ h4, ih']
    simp [b64Char_ne_pad _ h3, b64Char_ne_pad _ h4]
    omega

/-- Opening line of a PEM block with the given type label, as produced by
pem.EncodeToMemory in the test file. -/
def pemHeader (label : String) : List Char :=
  ("-----BEGIN " ++ label ++ "-----\n").data

/-- Closing line of a PEM block with the given type label. -/
def pemFooter (label : String) : List Char :=
  ("\n-----END " ++ label ++ "-----\n").data

/-- PEM encoding of a byte stream: the header line, the base64 payload and
the footer line.  Line folding of the payload is abstracted away; it does
not affect which certificates a response denotes. -/
def pemEncodeBytes (label : String) (bs : List Nat) : List Char :=
  pemHeader label ++ b64Encode bs ++ pemFooter label

/-- PEM decoding: check the header and footer lines and base64-decode the
payload between them. -/
def pemDecodeChars (label : String) (l : List Char) : Option (List Nat) :=
  let hl := (pemHeader label).length
  let fl := (pemFooter label).length
  if hl + fl ≤ l.length ∧ l.take hl = pemHeader label ∧
      l.drop (l.length - fl) = pemFooter label then
    b64Decode ((l.drop hl).take (l.length - hl - fl))
  else none

/-- pemDecodeChars inverts pemEncodeBytes. -/
theorem pemDecode_pemEncode (label : String) (bs : List Nat)
    (h : ∀ b ∈ bs, b < 256) :
    pemDecodeChars label (pemEncodeBytes label bs) = some bs := by
  have hlen : (pemEncodeBytes label bs).length =
      (pemHeader label).length + (b64Encode bs).length +
        (pemFooter label).length := by
    simp [pemEncodeBytes]
    omega
  have htake : (pemEncodeBytes label bs).take (pemHeader label).length =
      pemHeader label := by
    simp [pemEncodeBytes, List.append_assoc]
  have hdrop : (pemEncodeBytes label bs).drop
      ((pemEncodeBytes label bs).length - (pemFooter label).length) =
      pemFooter label := by
    have := List.drop_left (pemHeader label ++ b64Encode bs) (pemFooter label)
    rw [hlen]
    have harith : (pemHeader label).length + (b64Encode bs).length +
        (pemFooter label).length - (pemFooter label).length =
        (pemHeader label ++ b64Encode bs).length := by
      simp
    rw [harith]
    simp [pemEncodeBytes, List.append_assoc]
  have hmid : ((pemEncodeBytes label bs).drop (pemHeader label).length).take
      ((pemEncodeBytes label bs).length - (pemHeader label).length -
        (pemFooter label).length) = b64Encode bs := by
    have hdl : (pemEncodeBytes label bs).drop (pemHeader label).length =
        b64Encode bs ++ pemFooter label := by
      simp [pemEncodeBytes, List.append_assoc]
    rw [hdl, hlen]
    have harith : (pemHeader label).length + (b64Encode bs).length +
        (pemFooter label).length - (pemHeader label).length -
        (pemFooter label).length = (b64Encode bs).length := by omega
    rw [harith]
    exact List.take_left (b64Encode bs) (pemFooter label)
  have hcond : (pemHeader label).length + (pemFooter label).length ≤
      (pemEncodeBytes label bs).length := by
    rw [hlen]; omega
  have hall : (pemHeader label).length + (pemFooter label).length ≤
      (pemEncodeBytes label bs).length ∧
      (pemEncodeBytes label bs).take (pemHeader label).length =
        pemHeader label ∧
      (pemEncodeBytes label bs).drop
        ((pemEncodeBytes label bs).length - (pemFooter label).length) =
        pemFooter label := ⟨hcond, htake, hdrop⟩
  simp only [pemDecodeChars]
  rw [if_pos hall, hmid]
  exact b64Decode_b64Encode bs h

/-! The enrollment response model.  The structure mirrors
ejbcaclient.CertificateRestResponse as populated by
certificateRestResponseFromExpectedCerts in the test file: a response
format tag, the issuing certificate as one string, and the chain as a list
of strings. -/

/-- The body of a CA enrollment response. -/
structure CertificateRestResponse where
  responseFormat : String
  certificate : String
  certificateChain : List String
deriving DecidableEq

/-- Encoding of one certificate as the response carries it: a PEM block
when the format tag is PEM, and base64 of the DER bytes otherwise, exactly
as the test builder does. -/
def encodeCert (format : String) (c : Cert) : String :=
  if format = "PEM" then String.mk (pemEncodeBytes "CERTIFICATE" (derOfCert c))
  else String.mk (b64Encode (derOfCert c))

/-- The response builder of the test file
(certificateRestResponseFromExpectedCerts): the first certificate of the
issuing chain becomes the certificate field and the rest of the chain plus
the root CAs become the chain field, each encoded per the format tag. -/
def certificateRestResponseFromExpectedCerts (issuingCaAndChain : List Cert)
    (rootCAs : List Cert) (format : String) : CertificateRestResponse :=
  { responseFormat := format
    certificate := encodeCert format (issuingCaAndChain.headD ⟨"", ""⟩)
    certificateChain :=
      (issuingCaAndChain.drop 1 ++ rootCAs).map (encodeCert format) }

/-- Decoding of one certificate string according to the format tag. -/
def decodeCertString (format : String) (s : String) : Option Cert :=
  if format = "PEM" then
    (pemDecodeChars "CERTIFICATE" s.data).bind certOfDer
  else (b64Decode s.data).bind certOfDer

/-- Decoding of a whole list of certificate strings; any failure fails the
list. -/
def decodeCertList (format : String) : List String → Option (List Cert)
  | [] => some []
  | s :: rest =>
    match decodeCertString format s, decodeCertList format rest with
    | some c, some cs => some (c :: cs)
    | _, _ => none

/-- Modelled from the spec: the 2xx response handling of the enrollment
client (absent from src/; TestMintX509CAAndSubscribe is present).  The
format tag must be PEM or DER, otherwise an Internal error naming the tag
is returned; the issuing certificate and the chain are decoded per the
tag; every certificate in issuing certificate plus chain is classified as
a root exactly when it is self-signed, the remaining certificates keep
their order in the issuing chain, and a chain with no non-self-signed
entry degenerates to the issuing certificate alone. -/
def parseCertificateResponse (r : CertificateRestResponse) :
    Except EjbcaError (List Cert × List Cert) :=
  if r.responseFormat = "PEM" ∨ r.responseFormat = "DER" then
    match decodeCertString r.responseFormat r.certificate,
        decodeCertList r.responseFormat r.certificateChain with
    | some issuing, some chain =>
      let all := issuing :: chain
      let nonRoots := all.filter (fun c => !c.isSelfSigned)
      if nonRoots.isEmpty then .ok ([issuing], chain)
      else .ok (nonRoots, all.filter (fun c => c.isSelfSigned))
    | _, _ =>
      .error ⟨.internal, "failed to parse certificate from ejbca response"⟩
  else
    .error ⟨.internal,
      "ejbca returned unsupported certificate format: " ++ r.responseFormat⟩

/-- Decoding inverts encoding of one certificate for both supported
format tags. -/
theorem decodeCertString_encodeCert (format : String) (c : Cert)
    (h : format = "PEM" ∨ format = "DER") :
    decodeCertString format (encodeCert format c) = some c := by
  rcases h with h | h <;> subst h
  · have hu : decodeCertString "PEM" (encodeCert "PEM" c) =
        (pemDecodeChars "CERTIFICATE"
          (pemEncodeBytes "CERTIFICATE" (derOfCert c))).bind certOfDer := rfl
    rw [hu, pemDecode_pemEncode "CERTIFICATE" (derOfCert c) (derOfCert_lt c)]
    simp [certOfDer_derOfCert]
  · have hu : decodeCertString "DER" (encodeCert "DER" c) =
        (b64Decode (b64Encode (derOfCert c))).bind certOfDer := rfl
    rw [hu, b64Decode_b64Encode (derOfCert c) (derOfCert_lt c)]
    simp [certOfDer_derOfCert]

/-- Decoding inverts encoding of a certificate list for both supported
format tags. -/
theorem decodeCertList_map_encodeCert (format : String) (l : List Cert)
    (h : format = "PEM" ∨ format = "DER") :
    decodeCertList format (l.map (encodeCert format)) = some l := by
  induction l with
  | nil => rfl
  | cons c rest ih =>
    simp only [List.map_cons, decodeCertList,
      decodeCertString_encodeCert format c h, ih]

/-- Helper for C1: parsing a response built from an issuing chain and a
root list recovers the self-signed conjunction split of the full
certificate sequence, for either supported format tag. -/
theorem parse_build_split (issuing : Cert) (chainTail rootCAs : List Cert)
    (format : String) (hfmt : format = "PEM" ∨ format = "DER")
    (hiss : issuing.isSelfSigned = false) :
    parseCertificateResponse
        (certificateRestResponseFromExpectedCerts (issuing :: chainTail)
          rootCAs format) =
      .ok ((issuing :: (chainTail ++ rootCAs)).filter
            (fun c => !c.isSelfSigned),
          (issuing :: (chainTail ++ rootCAs)).filter
            (fun c => c.isSelfSigned)) := by
  have hbuild : certificateRestResponseFromExpectedCerts (issuing :: chainTail)
      rootCAs format =
      { responseFormat := format
        certificate := encodeCert format issuing
        certificateChain := (chainTail ++ rootCAs).map (encodeCert format) } := by
    simp [certificateRestResponseFromExpectedCerts]
  rw [hbuild]
  simp only [parseCertificateResponse]
  rw [if_pos hfmt]
  rw [decodeCertString_encodeCert format issuing hfmt,
    decodeCertList_map_encodeCert format (chainTail ++ rootCAs) hfmt]
  simp [List.filter_cons, hiss]

/-- C1: for a 2xx enrollment response over any certificate sequence whose
issuing certificate is not itself self-signed, every certificate in
issuing certificate plus chain lands in the root set exactly when its
issuer equals its own subject, both the root set and the issuing chain
keep the original relative order (they are the two filter projections of
the original sequence), the issuing certificate stays first in the issuing
chain, and the PEM-tagged and DER-tagged encodings of the same
certificates parse to the identical split. -/
theorem chainSplit_selfSigned_partition (issuing : Cert)
    (chainTail rootCAs : List Cert) (format : String)
    (hfmt : format = "PEM" ∨ format = "DER")
    (hiss : issuing.isSelfSigned = false) :
    parseCertificateResponse
        (certificateRestResponseFromExpectedCerts (issuing :: chainTail)
          rootCAs format) =
      .ok ((issuing :: (chainTail ++ rootCAs)).filter
            (fun c => !c.isSelfSigned),
          (issuing :: (chainTail ++ rootCAs)).filter
            (fun c => c.isSelfSigned)) ∧
    ((issuing :: (chainTail ++ rootCAs)).filter
        (fun c => !c.isSelfSigned)).head? = some issuing ∧
    parseCertificateResponse
        (certificateRestResponseFromExpectedCerts (issuing :: chainTail)
          rootCAs "PEM") =
      parseCertificateResponse
        (certificateRestResponseFromExpectedCerts (issuing :: chainTail)
          rootCAs "DER") := by
  refine ⟨parse_build_split issuing chainTail rootCAs format hfmt hiss, ?_, ?_⟩
  · simp [List.filter_cons, hiss]
  · rw [parse_build_split issuing chainTail rootCAs "PEM" (Or.inl rfl) hiss,
      parse_build_split issuing chainTail rootCAs "DER" (Or.inr rfl) hiss]

/-- Witness for C1 at the certificate chain of TestMintX509CAAndSubscribe:
the SVID issuing certificate issued by Fake-Sub-CA, the Fake-Sub-CA
intermediate issued by Fake-Root-CA, and the self-signed Fake-Root-CA. -/
theorem chainSplit_selfSigned_partition_witness :
    (("PEM" : String) = "PEM" ∨ ("PEM" : String) = "DER") ∧
    Cert.isSelfSigned ⟨"", "Fake-Sub-CA"⟩ = false ∧
    (parseCertificateResponse
        (certificateRestResponseFromExpectedCerts
          [⟨"", "Fake-Sub-CA"⟩, ⟨"Fake-Sub-CA", "Fake-Root-CA"⟩]
          [⟨"Fake-Root-CA", "Fake-Root-CA"⟩] "PEM") =
      .ok (([⟨"", "Fake-Sub-CA"⟩, ⟨"Fake-Sub-CA", "Fake-Root-CA"⟩,
              ⟨"Fake-Root-CA", "Fake-Root-CA"⟩] : List Cert).filter
            (fun c => !c.isSelfSigned),
          ([⟨"", "Fake-Sub-CA"⟩, ⟨"Fake-Sub-CA", "Fake-Root-CA"⟩,
              ⟨"Fake-Root-CA", "Fake-Root-CA"⟩] : List Cert).filter
            (fun c => c.isSelfSigned)) ∧
      (([⟨"", "Fake-Sub-CA"⟩, ⟨"Fake-Sub-CA", "Fake-Root-CA"⟩,
          ⟨"Fake-Root-CA", "Fake-Root-CA"⟩] : List Cert).filter
        (fun c => !c.isSelfSigned)).head? = some ⟨"", "Fake-Sub-CA"⟩ ∧
      parseCertificateResponse
          (certificateRestResponseFromExpectedCerts
            [⟨"", "Fake-Sub-CA"⟩, ⟨"Fake-Sub-CA", "Fake-Root-CA"⟩]
            [⟨"Fake-Root-CA", "Fake-Root-CA"⟩] "PEM") =
        parseCertificateResponse
          (certificateRestResponseFromExpectedCerts
            [⟨"", "Fake-Sub-CA"⟩, ⟨"Fake-Sub-CA", "Fake-Root-CA"⟩]
            [⟨"Fake-Root-CA", "Fake-Root-CA"⟩] "DER")) :=
  ⟨Or.inl rfl, by decide,
   chainSplit_selfSigned_partition ⟨"", "Fake-Sub-CA"⟩
     [⟨"Fake-Sub-CA", "Fake-Root-CA"⟩] [⟨"Fake-Root-CA", "Fake-Root-CA"⟩]
     "PEM" (Or.inl rfl) (by decide)⟩

/-- The result of the enrollment HTTP round trip as the response handler
sees it: the numeric status code, the status line, the error text of the
CA's structured error payload when that payload parsed (none when it did
not), and the decoded response body. -/
structure EnrollHttpResult where
  statusCode : Nat
  status : String
  errorMessage : Option String
  body : CertificateRestResponse
deriving DecidableEq

/-- Modelled from the spec: the enrollment response handling of the
minting call (absent from src/; TestMintX509CAAndSubscribe asserts the
resulting error strings).  A 2xx status hands the body to the certificate
parser; any other status folds the status line and, when parseable, the
structured payload's error text into an Internal error, with a generic
status-based message when the payload is unparseable. -/
def enrollResponseToChain (r : EnrollHttpResult) :
    Except EjbcaError (List Cert × List Cert) :=
  if 200 ≤ r.statusCode ∧ r.statusCode < 300 then
    parseCertificateResponse r.body
  else
    match r.errorMessage with
    | some m =>
      .error ⟨.internal, "EJBCA returned an error: failed to enroll CSR - " ++
        r.status ++ " - " ++ m⟩
    | none =>
      .error ⟨.internal, "EJBCA returned an error: failed to enroll CSR - " ++
        r.status⟩

/-- C4: a 2xx response whose format tag is neither PEM nor DER makes the
minting call fail with an Internal error whose message carries the literal
tag after the text unsupported certificate format, and no chain is
returned (the result is the error, not an ok value). -/
theorem mint_unsupportedFormat (r : EnrollHttpResult)
    (h2xx : 200 ≤ r.statusCode ∧ r.statusCode < 300)
    (hp : r.body.responseFormat ≠ "PEM") (hd : r.body.responseFormat ≠ "DER") :
    enrollResponseToChain r =
      .error ⟨.internal, "ejbca returned unsupported certificate format: " ++
        r.body.responseFormat⟩ := by
  unfold enrollResponseToChain
  rw [if_pos h2xx]
  unfold parseCertificateResponse
  rw [if_neg (not_or.mpr ⟨hp, hd⟩)]

/-- Witness for C4 at the PKCS7 row of TestMintX509CAAndSubscribe. -/
theorem mint_unsupportedFormat_witness :
    (200 ≤ 200 ∧ 200 < 300) ∧
    ("PKCS7" : String) ≠ "PEM" ∧ ("PKCS7" : String) ≠ "DER" ∧
    enrollResponseToChain ⟨200, "200 OK", none, ⟨"PKCS7", "abc", []⟩⟩ =
      .error ⟨.internal,
        "ejbca returned unsupported certificate format: " ++ "PKCS7"⟩ :=
  ⟨by decide, by decide, by decide,
   mint_unsupportedFormat ⟨200, "200 OK", none, ⟨"PKCS7", "abc", []⟩⟩
     (by decide) (by decide) (by decide)⟩

/-- The non-2xx result asserted by the success_ejbca_api_error row of
TestMintX509CAAndSubscribe: a 400 status with a parseable error payload. -/
def badRequestResult : EnrollHttpResult :=
  ⟨400, "400 Bad Request", some "EJBCA API returned error", ⟨"PEM", "", []⟩⟩

/-- C5 counterexample: at the 400 Bad Request input of the test, the
minting call fails with an Internal error that contains the HTTP status
line and the payload's error text, but the message is not prefixed with
the HTTP status line as the claim states: it begins with the fixed
enrollment failure text instead. -/
theorem enrollError_notStatusPrefixed :
    enrollResponseToChain badRequestResult =
      .error ⟨.internal, "EJBCA returned an error: failed to enroll CSR - " ++
        "400 Bad Request" ++ " - " ++ "EJBCA API returned error"⟩ ∧
    "400 Bad Request".data.isPrefixOf
      ("EJBCA returned an error: failed to enroll CSR - " ++
        "400 Bad Request" ++ " - " ++ "EJBCA API returned error").data =
      false := by
  decide

/-- C5 amended: on every non-2xx status the minting call fails with an
Internal error whose message is the fixed enrollment failure text followed
by the HTTP status line and, when the CA's structured payload is
parseable, the payload's error text; when the payload is unparseable the
message is the generic status-based form; and no chain value is returned
either way. -/
theorem enrollError_non2xx (r : EnrollHttpResult)
    (hstatus : r.statusCode < 200 ∨ 300 ≤ r.statusCode) :
    enrollResponseToChain r =
      (match r.errorMessage with
      | some m =>
        .error ⟨.internal, "EJBCA returned an error: failed to enroll CSR - " ++
          r.status ++ " - " ++ m⟩
      | none =>
        .error ⟨.internal, "EJBCA returned an error: failed to enroll CSR - " ++
          r.status⟩) ∧
    ∀ chain, enrollResponseToChain r ≠ .ok chain := by
  have hneg : ¬(200 ≤ r.statusCode ∧ r.statusCode < 300) := by omega
  unfold enrollResponseToChain
  rw [if_neg hneg]
  cases r.errorMessage <;> simp

/-- Witness for C5 amended at the 400 input with a parseable payload and at
a 500 input with an unparseable payload. -/
theorem enrollError_non2xx_witness :
    ((400 : Nat) < 200 ∨ (300 : Nat) ≤ 400) ∧
    enrollResponseToChain badRequestResult =
      .error ⟨.internal, "EJBCA returned an error: failed to enroll CSR - " ++
        "400 Bad Request" ++ " - " ++ "EJBCA API returned error"⟩ ∧
    ((500 : Nat) < 200 ∨ (300 : Nat) ≤ 500) ∧
    enrollResponseToChain ⟨500, "500 Internal Server Error", none,
        ⟨"PEM", "", []⟩⟩ =
      .error ⟨.internal, "EJBCA returned an error: failed to enroll CSR - " ++
        "500 Internal Server Error"⟩ :=
  ⟨by decide,
   (enrollError_non2xx badRequestResult (by decide)).1,
   by decide,
   (enrollError_non2xx ⟨500, "500 Internal Server Error", none,
     ⟨"PEM", "", []⟩⟩ (by decide)).1⟩

/-- Concrete end-to-end evaluation of the response round trip of the spec:
the three-certificate chain splits into issuing chain and roots, in both
encodings, computing the base64 and PEM codecs all the way down. -/
theorem response_roundTrip_eval :
    parseCertificateResponse
        (certificateRestResponseFromExpectedCerts
          [⟨"I", "S"⟩, ⟨"S", "R"⟩] [⟨"R", "R"⟩] "PEM") =
      .ok ([⟨"I", "S"⟩, ⟨"S", "R"⟩], [⟨"R", "R"⟩]) ∧
    parseCertificateResponse
        (certificateRestResponseFromExpectedCerts
          [⟨"I", "S"⟩, ⟨"S", "R"⟩] [⟨"R", "R"⟩] "DER") =
      .ok ([⟨"I", "S"⟩, ⟨"S", "R"⟩], [⟨"R", "R"⟩]) := by
  decide

/-! Configuration layer.  Struct shapes and environment-variable names are
taken from the test file (TestConfigure's HCL fixtures, its getEnv and
readFile hooks, and the Config literal of TestMintX509CAAndSubscribe);
the validation and resolution behaviour is modelled from the spec. -/

/-- The mTLS credential block of the configuration (cert_auth). -/
structure CertAuthConfig where
  clientCert : String := ""
  clientCertPath : String := ""
  clientKey : String := ""
  clientKeyPath : String := ""
deriving DecidableEq

/-- The OAuth client-credentials block of the configuration (oauth). -/
structure OAuthConfig where
  tokenURL : String := ""
  clientID : String := ""
  clientSecret : String := ""
  scopes : String := ""
  audience : String := ""
deriving DecidableEq

/-- The raw plugin configuration as parsed from HCL or JSON. -/
structure Config where
  hostname : String := ""
  caName : String := ""
  endEntityProfileName : String := ""
  certificateProfileName : String := ""
  defaultEndEntityName : String := ""
  accountBindingID : String := ""
  caCert : String := ""
  caCertPath : String := ""
  certAuth : Option CertAuthConfig := none
  oauth : Option OAuthConfig := none
deriving DecidableEq

/-- The replaceable side-effect hooks of the plugin, mirroring
p.hooks.getEnv and p.hooks.readFile in the test file: environment lookup
(empty string when unset) and file reading (none on failure). -/
structure Hooks where
  getEnv : String → String
  readFile : String → Option String

/-- A string as an optional value: none when empty. -/
def nonEmptyOpt (s : String) : Option String :=
  if s = "" then none else some s

/-- Reading a file at an optional path: none when the path is empty, the
read fails, or the contents are empty. -/
def readNonEmpty (h : Hooks) (path : String) : Option String :=
  if path = "" then none
  else
    match h.readFile path with
    | some contents => nonEmptyOpt contents
    | none => none

/-- Modelled from the spec: per-field resolution of credential material
(the resolution helpers of the plugin are absent from src/).  Sources are
tried in order: the inline configuration value, the path field of the
configuration read through file I/O, the corresponding environment
variable as an inline value, and the corresponding PATH-suffixed
environment variable read through file I/O; the first non-empty success
wins. -/
def resolveValue (h : Hooks) (inlineValue path envName envPathName : String) :
    Option String :=
  match nonEmptyOpt inlineValue with
  | some v => some v
  | none =>
    match readNonEmpty h path with
    | some v => some v
    | none =>
      match nonEmptyOpt (h.getEnv envName) with
      | some v => some v
      | none => readNonEmpty h (h.getEnv envPathName)

/-- Modelled from the spec: resolution of an OAuth field, which has no
path form: the inline configuration value, then the corresponding
environment variable. -/
def resolveOauthValue (h : Hooks) (inlineValue envName : String) :
    Option String :=
  match nonEmptyOpt inlineValue with
  | some v => some v
  | none => nonEmptyOpt (h.getEnv envName)

/-- The cert_auth block of a configuration, or an all-empty block when the
configuration has none. -/
def certAuthOrDefault (c : Config) : CertAuthConfig := c.certAuth.getD {}

/-- The oauth block of a configuration, or an all-empty block when the
configuration has none. -/
def oauthOrDefault (c : Config) : OAuthConfig := c.oauth.getD {}

/-- CA root certificate resolution (ca_cert, ca_cert_path,
EJBCA_CA_CERT, EJBCA_CA_CERT_PATH). -/
def resolveCaCert (h : Hooks) (c : Config) : Option String :=
  resolveValue h c.caCert c.caCertPath "EJBCA_CA_CERT" "EJBCA_CA_CERT_PATH"

/-- Client certificate resolution (client_cert, client_cert_path,
EJBCA_CLIENT_CERT, EJBCA_CLIENT_CERT_PATH). -/
def resolveClientCert (h : Hooks) (c : Config) : Option String :=
  resolveValue h (certAuthOrDefault c).clientCert
    (certAuthOrDefault c).clientCertPath
    "EJBCA_CLIENT_CERT" "EJBCA_CLIENT_CERT_PATH"

/-- Client key resolution (client_key, client_key_path,
EJBCA_CLIENT_CERT_KEY, EJBCA_CLIENT_CERT_KEY_PATH). -/
def resolveClientKey (h : Hooks) (c : Config) : Option String :=
  resolveValue h (certAuthOrDefault c).clientKey
    (certAuthOrDefault c).clientKeyPath
    "EJBCA_CLIENT_CERT_KEY" "EJBCA_CLIENT_CERT_KEY_PATH"

/-- OAuth token URL resolution. -/
def resolveTokenURL (h : Hooks) (c : Config) : Option String :=
  resolveOauthValue h (oauthOrDefault c).tokenURL "EJBCA_OAUTH_TOKEN_URL"

/-- OAuth client id resolution. -/
def resolveClientID (h : Hooks) (c : Config) : Option String :=
  resolveOauthValue h (oauthOrDefault c).clientID "EJBCA_OAUTH_CLIENT_ID"

/-- OAuth client secret resolution. -/
def resolveClientSecret (h : Hooks) (c : Config) : Option String :=
  resolveOauthValue h (oauthOrDefault c).clientSecret
    "EJBCA_OAUTH_CLIENT_SECRET"

/-- OAuth scopes resolution, optional so it defaults to empty. -/
def resolveScopes (h : Hooks) (c : Config) : String :=
  (resolveOauthValue h (oauthOrDefault c).scopes "EJBCA_OAUTH_SCOPES").getD ""

/-- OAuth audience resolution, optional so it defaults to empty. -/
def resolveAudience (h : Hooks) (c : Config) : String :=
  (resolveOauthValue h (oauthOrDefault c).audience
    "EJBCA_OAUTH_AUDIENCE").getD ""

/-- The credential strategy chosen by validation: either an mTLS client
certificate pair or OAuth client-credentials values. -/
inductive CredentialStrategy where
  | mtls (clientCert clientKey : String)
  | oauth (tokenURL clientID clientSecret scopes audience : String)
deriving DecidableEq

/-- A configuration that passed validation. -/
structure ValidatedConfig where
  hostname : String
  caName : String
  endEntityProfileName : String
  certificateProfileName : String
  defaultEndEntityName : String
  accountBindingID : String
  strategy : CredentialStrategy
deriving DecidableEq

/-- Modelled from the spec: the validation stage of Configure (absent from
src/; TestConfigure is present).  The hostname, CA name, end entity
profile name and certificate profile name must be non-empty; then exactly
one credential strategy must resolve, mTLS being tried first, and when
neither resolves validation fails with InvalidArgument. -/
def validateConfig (h : Hooks) (c : Config) :
    Except EjbcaError ValidatedConfig :=
  if c.hostname = "" then
    .error ⟨.invalidArgument, "hostname is required"⟩
  else if c.caName = "" then
    .error ⟨.invalidArgument, "ca_name is required"⟩
  else if c.endEntityProfileName = "" then
    .error ⟨.invalidArgument, "end_entity_profile_name is required"⟩
  else if c.certificateProfileName = "" then
    .error ⟨.invalidArgument, "certificate_profile_name is required"⟩
  else
    match resolveClientCert h c, resolveClientKey h c with
    | some cc, some ck =>
      .ok ⟨c.hostname, c.caName, c.endEntityProfileName,
        c.certificateProfileName, c.defaultEndEntityName, c.accountBindingID,
        .mtls cc ck⟩
    | _, _ =>
      match resolveTokenURL h c, resolveClientID h c,
          resolveClientSecret h c with
      | some t, some i, some s =>
        .ok ⟨c.hostname, c.caName, c.endEntityProfileName,
          c.certificateProfileName, c.defaultEndEntityName,
          c.accountBindingID, .oauth t i s (resolveScopes h c)
            (resolveAudience h c)⟩
      | _, _, _ =>
        .error ⟨.invalidArgument, "no authentication method configured"⟩

/-- Whether a string parses as a PEM certificate block under the codec
model. -/
def certPemParses (s : String) : Bool :=
  ((pemDecodeChars "CERTIFICATE" s.data).bind certOfDer).isSome

/-- Whether a string parses as a PEM private key block under the codec
model. -/
def keyPemParses (s : String) : Bool :=
  (pemDecodeChars "EC PRIVATE KEY" s.data).isSome

/-- Modelled from the spec: the default authenticator construction, which
resolves the CA root certificate and parses the PEM material of the
chosen strategy, failing with InvalidArgument on unparseable material and
performing no network round trip. -/
def defaultAuthCheck (h : Hooks) (c : Config) (strat : CredentialStrategy) :
    Except EjbcaError Unit :=
  match resolveCaCert h c with
  | none => .error ⟨.invalidArgument, "failed to resolve CA certificate"⟩
  | some ca =>
    if certPemParses ca then
      match strat with
      | .mtls cc ck =>
        if certPemParses cc && keyPemParses ck then .ok ()
        else .error ⟨.invalidArgument,
          "failed to parse client certificate or key"⟩
      | .oauth _ _ _ _ _ => .ok ()
    else .error ⟨.invalidArgument, "failed to parse CA certificate"⟩

/-- The fake authenticator substituted through the hook in
TestMintX509CAAndSubscribe: it accepts any configuration without parsing
anything. -/
def fakeAuthCheck : Hooks → Config → CredentialStrategy →
    Except EjbcaError Unit := fun _ _ _ => .ok ()

/-- Configure with a given authenticator constructor hook: validation,
then authenticator construction, mirroring the p.hooks.newAuthenticator
substitution point of the test file. -/
def configureWith
    (newAuthenticator : Hooks → Config → CredentialStrategy →
      Except EjbcaError Unit)
    (h : Hooks) (c : Config) : Except EjbcaError ValidatedConfig :=
  match validateConfig h c with
  | .error e => .error e
  | .ok vc =>
    match newAuthenticator h c vc.strategy with
    | .error e => .error e
    | .ok _ => .ok vc

/-- Configure with the default authenticator constructor. -/
def configureDefault (h : Hooks) (c : Config) :
    Except EjbcaError ValidatedConfig :=
  configureWith defaultAuthCheck h c

/-- C7: credential material resolution tries, in order, the inline
configuration value, the configuration path read through file I/O, the
corresponding environment variable as an inline value, and the
PATH-suffixed environment variable read through file I/O: the resolver
equals the first non-none attempt of that list, a non-empty inline value
always wins over every environment override, and with no inline value and
no configuration path the environment attempts decide the result in
order. -/
theorem resolveValue_order (h : Hooks)
    (inlineValue path envName envPathName : String) :
    resolveValue h inlineValue path envName envPathName =
      ([nonEmptyOpt inlineValue, readNonEmpty h path,
        nonEmptyOpt (h.getEnv envName),
        readNonEmpty h (h.getEnv envPathName)].findSome? id) ∧
    (inlineValue ≠ "" →
      resolveValue h inlineValue path envName envPathName =
        some inlineValue) ∧
    (inlineValue = "" → path = "" →
      resolveValue h inlineValue path envName envPathName =
        (match nonEmptyOpt (h.getEnv envName) with
        | some v => some v
        | none => readNonEmpty h (h.getEnv envPathName))) := by
  refine ⟨?_, ?_, ?_⟩
  · unfold resolveValue
    cases nonEmptyOpt inlineValue <;>
      cases readNonEmpty h path <;>
        cases nonEmptyOpt (h.getEnv envName) <;>
          cases readNonEmpty h (h.getEnv envPathName) <;>
            simp [List.findSome?]
  · intro hne
    unfold resolveValue nonEmptyOpt
    rw [if_neg hne]
  · intro hi hp
    subst hi hp
    unfold resolveValue
    have h1 : nonEmptyOpt "" = none := rfl
    have h2 : readNonEmpty h "" = none := rfl
    rw [h1, h2]

/-- Hooks used by the C7 witness: every environment variable is set and
every file read succeeds, so every source could resolve. -/
def precHooks : Hooks :=
  ⟨fun _ => "envValue", fun _ => some "fileValue"⟩

/-- Witness for C7: with every source available, the inline value wins,
and the resolver agrees with the attempt list. -/
theorem resolveValue_order_witness :
    ("inlineValue" : String) ≠ "" ∧
    resolveValue precHooks "inlineValue" "/some/path" "ENV" "ENV_PATH" =
      some "inlineValue" ∧
    resolveValue precHooks "" "" "ENV" "ENV_PATH" = some "envValue" :=
  ⟨by decide,
   (resolveValue_order precHooks "inlineValue" "/some/path" "ENV"
     "ENV_PATH").2.1 (by decide),
   by
    rw [(resolveValue_order precHooks "" "" "ENV" "ENV_PATH").2.2 rfl rfl]
    decide⟩

/-- Helper for C6: whenever validation fails, the reported code is
InvalidArgument. -/
theorem validateConfig_error_code (h : Hooks) (c : Config) (e : EjbcaError)
    (he : validateConfig h c = .error e) : e.code = .invalidArgument := by
  unfold validateConfig at he
  split_ifs at he
  · cases he; rfl
  · cases he; rfl
  · cases he; rfl
  · cases he; rfl
  · cases hcc : resolveClientCert h c <;> cases hck : resolveClientKey h c <;>
      rw [hcc, hck] at he <;>
      try (cases ht : resolveTokenURL h c <;>
        cases hi : resolveClientID h c <;>
        cases hs : resolveClientSecret h c <;>
        rw [ht, hi, hs] at he <;>
        first
        | (cases he; rfl)
        | (exfalso; exact Except.noConfusion he))

/-- Helper for C6: a missing required field makes Configure fail with
InvalidArgument regardless of the rest of the configuration. -/
theorem configure_missingField (h : Hooks) (c : Config)
    (hmiss : c.hostname = "" ∨ c.caName = "" ∨ c.endEntityProfileName = "" ∨
      c.certificateProfileName = "") :
    ∃ e, configureDefault h c = .error e ∧ e.code = .invalidArgument := by
  have herr : ∃ e, validateConfig h c = .error e := by
    unfold validateConfig
    by_cases h1 : c.hostname = ""
    · exact ⟨_, by rw [if_pos h1]⟩
    · rw [if_neg h1]
      by_cases h2 : c.caName = ""
      · exact ⟨_, by rw [if_pos h2]⟩
      · rw [if_neg h2]
        by_cases h3 : c.endEntityProfileName = ""
        · exact ⟨_, by rw [if_pos h3]⟩
        · rw [if_neg h3]
          by_cases h4 : c.certificateProfileName = ""
          · exact ⟨_, by rw [if_pos h4]⟩
          · rcases hmiss with hm | hm | hm | hm <;> contradiction
  obtain ⟨e, he⟩ := herr
  refine ⟨e, ?_, validateConfig_error_code h c e he⟩
  unfold configureDefault configureWith
  rw [he]

/-- C6: configuring with the default authenticator fails with
InvalidArgument when any of hostname, CA name, end entity profile name or
certificate profile name is missing; it fails with InvalidArgument when
neither the mTLS pair nor the OAuth triple resolves; and it succeeds when
the required fields are present, the CA root certificate resolves to
parseable PEM, and exactly one credential block is complete (resolving,
with parseable PEM material on the mTLS side). -/
theorem configure_requirements (h : Hooks) (c : Config) :
    ((c.hostname = "" ∨ c.caName = "" ∨ c.endEntityProfileName = "" ∨
        c.certificateProfileName = "") →
      ∃ e, configureDefault h c = .error e ∧ e.code = .invalidArgument) ∧
    ((resolveClientCert h c = none ∨ resolveClientKey h c = none) →
     (resolveTokenURL h c = none ∨ resolveClientID h c = none ∨
        resolveClientSecret h c = none) →
      ∃ e, configureDefault h c = .error e ∧ e.code = .invalidArgument) ∧
    (c.hostname ≠ "" → c.caName ≠ "" → c.endEntityProfileName ≠ "" →
     c.certificateProfileName ≠ "" →
     (∃ ca, resolveCaCert h c = some ca ∧ certPemParses ca = true) →
     ((∃ cc ck, resolveClientCert h c = some cc ∧
         resolveClientKey h c = some ck ∧ certPemParses cc = true ∧
         keyPemParses ck = true) ∨
      ((resolveClientCert h c = none ∨ resolveClientKey h c = none) ∧
       (∃ t i s, resolveTokenURL h c = some t ∧
         resolveClientID h c = some i ∧ resolveClientSecret h c = some s))) →
      ∃ vc, configureDefault h c = .ok vc) := by
  refine ⟨configure_missingField h c, ?_, ?_⟩
  · intro hm ho
    by_cases hf : c.hostname = "" ∨ c.caName = "" ∨
        c.endEntityProfileName = "" ∨ c.certificateProfileName = ""
    · exact configure_missingField h c hf
    · push_neg at hf
      obtain ⟨h1, h2, h3, h4⟩ := hf
      have herr : validateConfig h c =
          .error ⟨.invalidArgument, "no authentication method configured"⟩ := by
        unfold validateConfig
        rw [if_neg h1, if_neg h2, if_neg h3, if_neg h4]
        cases hcc : resolveClientCert h c <;>
          cases hck : resolveClientKey h c <;>
            cases ht : resolveTokenURL h c <;>
              cases hi : resolveClientID h c <;>
                cases hs : resolveClientSecret h c <;>
                  simp_all
      refine ⟨⟨.invalidArgument, "no authentication method configured"⟩,
        ?_, rfl⟩
      unfold configureDefault configureWith
      rw [herr]
  · intro h1 h2 h3 h4 hca hblocks
    obtain ⟨ca, hca, hcaok⟩ := hca
    rcases hblocks with ⟨cc, ck, hcc, hck, hccok, hckok⟩ | ⟨hm, t, i, s, ht, hi, hs⟩
    · have hv : validateConfig h c = .ok ⟨c.hostname, c.caName,
          c.endEntityProfileName, c.certificateProfileName,
          c.defaultEndEntityName, c.accountBindingID, .mtls cc ck⟩ := by
        unfold validateConfig
        rw [if_neg h1, if_neg h2, if_neg h3, if_neg h4, hcc, hck]
      refine ⟨⟨c.hostname, c.caName, c.endEntityProfileName,
        c.certificateProfileName, c.defaultEndEntityName, c.accountBindingID,
        .mtls cc ck⟩, ?_⟩
      have hauth : defaultAuthCheck h c (.mtls cc ck) = .ok () := by
        unfold defaultAuthCheck
        simp [hca, hcaok, hccok, hckok]
      unfold configureDefault configureWith
      rw [hv]
      simp [hauth]
    · have hv : validateConfig h c = .ok ⟨c.hostname, c.caName,
          c.endEntityProfileName, c.certificateProfileName,
          c.defaultEndEntityName, c.accountBindingID,
          .oauth t i s (resolveScopes h c) (resolveAudience h c)⟩ := by
        unfold validateConfig
        rw [if_neg h1, if_neg h2, if_neg h3, if_neg h4]
        rcases hm with hm | hm <;>
          cases hcc : resolveClientCert h c <;>
            cases hck : resolveClientKey h c <;>
              simp_all [ht, hi, hs]
      refine ⟨⟨c.hostname, c.caName, c.endEntityProfileName,
        c.certificateProfileName, c.defaultEndEntityName, c.accountBindingID,
        .oauth t i s (resolveScopes h c) (resolveAudience h c)⟩, ?_⟩
      have hauth : defaultAuthCheck h c
          (.oauth t i s (resolveScopes h c) (resolveAudience h c)) = .ok () := by
        unfold defaultAuthCheck
        simp [hca, hcaok]
      unfold configureDefault configureWith
      rw [hv]
      simp [hauth]

/-- A parseable CA root certificate in PEM form, standing in for the caPem
fixture of the tests. -/
def testCaPem : String :=
  String.mk (pemEncodeBytes "CERTIFICATE"
    (derOfCert ⟨"Fake-Root-CA", "Fake-Root-CA"⟩))

/-- A parseable client certificate in PEM form, standing in for the
certPem fixture of the tests. -/
def testCertPem : String :=
  String.mk (pemEncodeBytes "CERTIFICATE"
    (derOfCert ⟨"Fake-Sub-CA", "Fake-Root-CA"⟩))

/-- A parseable client key in PEM form, standing in for the keyPem fixture
of the tests. -/
def testKeyPem : String :=
  String.mk (pemEncodeBytes "EC PRIVATE KEY" (strToBytes "test-key-material"))

/-- Hooks with an empty environment and no readable files, the default
situation of the minting test. -/
def emptyHooks : Hooks := ⟨fun _ => "", fun _ => none⟩

/-- The file contents used by the path-based TestConfigure rows. -/
def testReadFile : String → Option String := fun p =>
  if p = "/path/to/ca.crt" then some testCaPem
  else if p = "/path/to/cert.crt" then some testCertPem
  else if p = "/path/to/key.pem" then some testKeyPem
  else none

/-- Hooks for the row CA, Client Cert, and Client Key path from config:
empty environment, files readable at the three configured paths. -/
def pathHooks : Hooks := ⟨fun _ => "", testReadFile⟩

/-- The configuration of the TestConfigure row No Hostname. -/
def noHostnameConfig : Config :=
  { caName := "Fake-Sub-CA"
    endEntityProfileName := "fakeSpireIntermediateCAEEP"
    certificateProfileName := "fakeSubCACP"
    defaultEndEntityName := "cn"
    accountBindingID := "spiffe://example.org/spire/agent/join_token/abcd"
    caCert := testCaPem
    certAuth := some
      { clientCert := testCertPem
        clientKey := testKeyPem } }

/-- The configuration of the TestConfigure row No Auth Method. -/
def noAuthConfig : Config :=
  { hostname := "ejbca.example.org"
    caName := "Fake-Sub-CA"
    endEntityProfileName := "fakeSpireIntermediateCAEEP"
    certificateProfileName := "fakeSubCACP"
    defaultEndEntityName := "cn"
    accountBindingID := "spiffe://example.org/spire/agent/join_token/abcd" }

/-- The configuration of the TestConfigure row CA, Client Cert, and Client
Key path from config. -/
def pathConfig : Config :=
  { hostname := "ejbca.example.org"
    caName := "Fake-Sub-CA"
    endEntityProfileName := "fakeSpireIntermediateCAEEP"
    certificateProfileName := "fakeSubCACP"
    defaultEndEntityName := "cn"
    accountBindingID := "spiffe://example.org/spire/agent/join_token/abcd"
    caCertPath := "/path/to/ca.crt"
    certAuth := some
      { clientCertPath := "/path/to/cert.crt"
        clientKeyPath := "/path/to/key.pem" } }

/-- Witness for C6 at three TestConfigure rows: No Hostname fails with
InvalidArgument, No Auth Method fails with InvalidArgument, and the
path-from-config row succeeds. -/
theorem configure_requirements_witness :
    (∃ e, configureDefault emptyHooks noHostnameConfig = .error e ∧
      e.code = .invalidArgument) ∧
    (∃ e, configureDefault emptyHooks noAuthConfig = .error e ∧
      e.code = .invalidArgument) ∧
    (∃ vc, configureDefault pathHooks pathConfig = .ok vc) :=
  ⟨(configure_requirements emptyHooks noHostnameConfig).1 (Or.inl rfl),
   (configure_requirements emptyHooks noAuthConfig).2.1
     (Or.inl (by decide)) (Or.inl (by decide)),
   (configure_requirements pathHooks pathConfig).2.2
     (by decide) (by decide) (by decide) (by decide)
     ⟨testCaPem, by decide, by decide⟩
     (Or.inl ⟨testCertPem, testKeyPem, by decide, by decide, by decide,
       by decide⟩)⟩

/-- The configuration of TestMintX509CAAndSubscribe: no CA certificate,
placeholder client certificate and key values that are not PEM. -/
def mintTestConfig : Config :=
  { hostname := "https://ejbca.example.org"
    caName := "Fake-Sub-CA"
    endEntityProfileName := "fakeSpireIntermediateCAEEP"
    certificateProfileName := "fakeSubCACP"
    certAuth := some
      { clientCert := "BEGIN CERTIFICATE ... END CERTIFICATE"
        clientKey := "BEGIN RSA PRIVATE KEY ... END RSA PRIVATE KEY" } }

/-- C9 counterexample: Configure as exercised by the minting test (with
the authenticator hook replaced by the fake one) accepts the test's
configuration even though the resolved client certificate and key are not
parseable PEM, so an accepted configuration does not imply well-formed
PEM material. -/
theorem configure_accepts_nonPem :
    configureWith fakeAuthCheck emptyHooks mintTestConfig =
      .ok ⟨"https://ejbca.example.org", "Fake-Sub-CA",
        "fakeSpireIntermediateCAEEP", "fakeSubCACP", "", "",
        .mtls "BEGIN CERTIFICATE ... END CERTIFICATE"
          "BEGIN RSA PRIVATE KEY ... END RSA PRIVATE KEY"⟩ ∧
    certPemParses "BEGIN CERTIFICATE ... END CERTIFICATE" = false ∧
    keyPemParses "BEGIN RSA PRIVATE KEY ... END RSA PRIVATE KEY" = false := by
  decide

/-- C9 amended: with the default authenticator constructor (the one that
parses material, rather than the test's fake), every configuration
accepted by Configure has a CA root certificate resolving to parseable
PEM, and parseable PEM client certificate and key whenever the mTLS
strategy was chosen; the PEM check lives in authenticator construction,
not in validation, so it can be bypassed by substituting the hook. -/
theorem configure_default_material_isPem (h : Hooks) (c : Config)
    (vc : ValidatedConfig) (hok : configureDefault h c = .ok vc) :
    (∃ ca, resolveCaCert h c = some ca ∧ certPemParses ca = true) ∧
    (∀ cc ck, vc.strategy = .mtls cc ck →
      certPemParses cc = true ∧ keyPemParses ck = true) := by
  unfold configureDefault configureWith at hok
  cases hv : validateConfig h c with
  | error e => rw [hv] at hok; exact absurd hok (by simp)
  | ok vc' =>
    rw [hv] at hok
    cases ha : defaultAuthCheck h c vc'.strategy with
    | error e => simp [ha] at hok
    | ok u =>
      simp [ha] at hok
      subst hok
      unfold defaultAuthCheck at ha
      cases hca : resolveCaCert h c with
      | none => rw [hca] at ha; exact absurd ha (by simp)
      | some ca =>
        simp only [hca] at ha
        by_cases hpem : certPemParses ca = true
        · refine ⟨⟨ca, rfl, hpem⟩, ?_⟩
          intro cc ck hstrat
          rw [if_pos hpem] at ha
          simp only [hstrat] at ha
          by_cases hmat : (certPemParses cc && keyPemParses ck) = true
          · exact ⟨((Bool.and_eq_true _ _).mp hmat).1,
              ((Bool.and_eq_true _ _).mp hmat).2⟩
          · rw [if_neg hmat] at ha
            exact absurd ha (by simp)
        · rw [if_neg hpem] at ha
          exact absurd ha (by simp)

/-- A configuration with inline, parseable PEM material for the C9
witness. -/
def inlinePemConfig : Config :=
  { hostname := "ejbca.example.org"
    caName := "Fake-Sub-CA"
    endEntityProfileName := "fakeSpireIntermediateCAEEP"
    certificateProfileName := "fakeSubCACP"
    caCert := testCaPem
    certAuth := some
      { clientCert := testCertPem
        clientKey := testKeyPem } }

/-- Witness for C9 amended: a configuration accepted by the
default-authenticator Configure indeed has parseable resolved CA
material. -/
theorem configure_default_material_isPem_witness :
    configureDefault emptyHooks inlinePemConfig =
      .ok ⟨"ejbca.example.org", "Fake-Sub-CA", "fakeSpireIntermediateCAEEP",
        "fakeSubCACP", "", "", .mtls testCertPem testKeyPem⟩ ∧
    (∃ ca, resolveCaCert emptyHooks inlinePemConfig = some ca ∧
      certPemParses ca = true) :=
  ⟨by decide,
   (configure_default_material_isPem emptyHooks inlinePemConfig
     ⟨"ejbca.example.org", "Fake-Sub-CA", "fakeSpireIntermediateCAEEP",
       "fakeSubCACP", "", "", .mtls testCertPem testKeyPem⟩ (by decide)).1⟩

/-- C10: when both credential blocks fully resolve (with parseable mTLS
material), Configure does not reject the configuration as ambiguous: it
succeeds, and the strategy is the deterministic mTLS preference applied to
the resolved values. -/
theorem configure_bothCredentialBlocks (h : Hooks) (c : Config)
    (ca cc ck t i s : String)
    (h1 : c.hostname ≠ "") (h2 : c.caName ≠ "")
    (h3 : c.endEntityProfileName ≠ "") (h4 : c.certificateProfileName ≠ "")
    (hca : resolveCaCert h c = some ca) (hcaok : certPemParses ca = true)
    (hcc : resolveClientCert h c = some cc)
    (hccok : certPemParses cc = true)
    (hck : resolveClientKey h c = some ck)
    (hckok : keyPemParses ck = true)
    (_ht : resolveTokenURL h c = some t)
    (_hi : resolveClientID h c = some i)
    (_hs : resolveClientSecret h c = some s) :
    configureDefault h c =
      .ok ⟨c.hostname, c.caName, c.endEntityProfileName,
        c.certificateProfileName, c.defaultEndEntityName, c.accountBindingID,
        .mtls cc ck⟩ := by
  have hv : validateConfig h c = .ok ⟨c.hostname, c.caName,
      c.endEntityProfileName, c.certificateProfileName,
      c.defaultEndEntityName, c.accountBindingID, .mtls cc ck⟩ := by
    unfold validateConfig
    rw [if_neg h1, if_neg h2, if_neg h3, if_neg h4, hcc, hck]
  have hauth : defaultAuthCheck h c (.mtls cc ck) = .ok () := by
    unfold defaultAuthCheck
    simp [hca, hcaok, hccok, hckok]
  unfold configureDefault configureWith
  rw [hv]
  simp [hauth]

/-- Hooks for the row CA, Client Cert, and Client Key path from env of
TestConfigure: paths provided through the environment, contents through
files. -/
def envPathHooks : Hooks :=
  ⟨fun k =>
    if k = "EJBCA_CA_CERT_PATH" then "/path/to/ca.crt"
    else if k = "EJBCA_CLIENT_CERT_PATH" then "/path/to/cert.crt"
    else if k = "EJBCA_CLIENT_CERT_KEY_PATH" then "/path/to/key.pem"
    else "",
   testReadFile⟩

/-- The configuration of the row CA, Client Cert, and Client Key path from
env: an empty cert_auth block next to a complete oauth block, with the
mTLS material supplied through the environment. -/
def bothBlocksConfig : Config :=
  { hostname := "ejbca.example.org"
    caName := "Fake-Sub-CA"
    endEntityProfileName := "fakeSpireIntermediateCAEEP"
    certificateProfileName := "fakeSubCACP"
    defaultEndEntityName := "cn"
    accountBindingID := "spiffe://example.org/spire/agent/join_token/abcd"
    certAuth := some {}
    oauth := some
      { tokenURL := "https://dev.idp.com/oauth/token"
        clientID := "fi3ElQUVoBBHyRNt4mpUxG9WY65AOCcJ"
        clientSecret :=
          "1EXHdD7Ikmmv0OkBoJZZtzOG5iAzvwdqBVuvquf-QEvL6fLrEG_heJHphtEXVj9H"
        scopes := "read:certificates,write:certificates"
        audience := "https://ejbca.example.com" } }

/-- Witness for C10 at the both-blocks row of TestConfigure: both blocks
resolve, Configure succeeds, and the chosen strategy is mTLS over the
material read from the environment paths. -/
theorem configure_bothCredentialBlocks_witness :
    resolveClientCert envPathHooks bothBlocksConfig = some testCertPem ∧
    resolveTokenURL envPathHooks bothBlocksConfig =
      some "https://dev.idp.com/oauth/token" ∧
    configureDefault envPathHooks bothBlocksConfig =
      .ok ⟨"ejbca.example.org", "Fake-Sub-CA", "fakeSpireIntermediateCAEEP",
        "fakeSubCACP", "cn",
        "spiffe://example.org/spire/agent/join_token/abcd",
        .mtls testCertPem testKeyPem⟩ :=
  ⟨by decide, by decide,
   configure_bothCredentialBlocks envPathHooks bothBlocksConfig
     testCaPem testCertPem testKeyPem "https://dev.idp.com/oauth/token"
     "fi3ElQUVoBBHyRNt4mpUxG9WY65AOCcJ"
     "1EXHdD7Ikmmv0OkBoJZZtzOG5iAzvwdqBVuvquf-QEvL6fLrEG_heJHphtEXVj9H"
     (by decide) (by decide) (by decide) (by decide) (by decide) (by decide)
     (by decide) (by decide) (by decide) (by decide) (by decide) (by decide)
     (by decide)⟩

end EjbcaPlugin

